import Mathlib

/-!
Shallow embedding of the matchmaking / game-session core of the UIOw2T
backend (`src/backend/game/__init__.py`): the `WaitingRoom` pool, the
per-match `Game` state machine and the `GameApp` orchestrator.

Modelling conventions:
* A Python `Player` object is a Lean structure value carrying an `oid`
  field standing for Python object identity (`is`, set/dict hashing of
  objects); mutation of a shared object is modelled by replacing, by
  `oid`, every occurrence of the value.
* The `socketio` delivery channel is modelled by a trace of `Event`
  values returned alongside the new state; `sio.emit(name, data, room)`
  appends an `Event.emit`.
* The external `BattleSimulator` (out of scope per the design document)
  is an opaque parameter `sim : Simulator`; its invocation is recorded
  in the trace as `Event.simulate seed` so that invocation counts and
  the seed are observable.
* Python dicts are association lists in insertion order; the dict
  comprehension in `Game.__init__` is `dictInsert` applied left to
  right (later insertion of an equal key overwrites in place).
* `random.sample(population, 2)` draws two distinct positions; the two
  chosen indices are passed explicitly as nondeterminism parameters.
-/

abbrev Sid := String

/-- A player registry entry.  The fields `nick`, `id` (connection id) and
`in_game` come from `backend/game/player.py`; `oid` models Python object
identity as explained in the header. -/
structure Player where
  oid : Nat
  nick : String
  id : Sid
  in_game : Bool
  deriving DecidableEq, Repr

instance : Inhabited Player := ⟨⟨0, "", "", false⟩⟩

/-- Modelled from the spec: `Player.reconnect` lives in
`backend/game/player.py`, which is absent from `src/`; design document
SS4.3: "update its `connectionId` (reconnection - same logical identity,
new transport endpoint)". -/
def Player.reconnect (p : Player) (id : Sid) : Player := { p with id := id }

/-- Modelled from the spec: `Player.reset_after_game` lives in
`backend/game/player.py`, which is absent from `src/`; design document
SS4.2: "reset both players' transient in-game state (`inGame = false`)". -/
def Player.reset_after_game (p : Player) : Player := { p with in_game := false }

/-- Modelled from the spec: message name from `api/route_constants.py`,
absent from `src/`; design document SS6. -/
def GAME_STARTED : String := "GAME_STARTED"

/-- Modelled from the spec: message name from `api/route_constants.py`,
absent from `src/`; design document SS6. -/
def GAME_RESULT : String := "GAME_RESULT"

/-- Modelled from the spec: message name from `api/route_constants.py`,
absent from `src/`; design document SS6. -/
def BATTLE_STARTED : String := "BATTLE_STARTED"

/-- One observable effect: either a `sio.emit` (event name, message
payload, optional logs payload, optional room) or one invocation of
`BattleSimulator.start_simulation` with its `random_seed`. -/
inductive Event where
  | emit (event : String) (message : String) (logs : Option String) (room : Option Sid)
  | simulate (seed : Nat)
  deriving DecidableEq, Repr

/-- The external outcome engine `BattleSimulator(*players)` /
`start_simulation(random_seed)`: returns `(result, message, logs)`. -/
abbrev Simulator := Player → Player → Nat → Int × String × String

/-- Number of simulator invocations recorded in a trace. -/
def simCount (events : List Event) : Nat :=
  events.countP (fun e => match e with | Event.simulate _ => true | _ => false)

/-- `WaitingRoom.__init__`: a capacity-bounded pool of players. -/
structure WaitingRoom where
  players : List Player
  capacity : Nat
  deriving DecidableEq, Repr

def WaitingRoom.init (capacity : Nat := 2) : WaitingRoom := ⟨[], capacity⟩

/-- `WaitingRoom.is_full`: `len(self.players) == self.capacity`. -/
def WaitingRoom.is_full (r : WaitingRoom) : Bool := r.players.length == r.capacity

/-- `WaitingRoom.join`: add iff the room is not full and the player (by
object identity) is not already a member. -/
def WaitingRoom.join (r : WaitingRoom) (player : Player) : WaitingRoom :=
  if !r.is_full && !(r.players.any (fun q => q.oid == player.oid)) then
    { r with players := r.players ++ [player] }
  else r

/-- `WaitingRoom.leave`: discard the player if present. -/
def WaitingRoom.leave (r : WaitingRoom) (player : Player) : WaitingRoom :=
  if r.players.any (fun q => q.oid == player.oid) then
    { r with players := r.players.filter (fun q => q.oid != player.oid) }
  else r

/-- Iterated `join`, for stating the capacity invariant over call
sequences. -/
def WaitingRoom.joinAll (r : WaitingRoom) (ps : List Player) : WaitingRoom :=
  ps.foldl WaitingRoom.join r

/-- How a call to `draw_two_players_to_game` can fail.
`sampleLargerThanPopulation` is the `ValueError` that
`random.sample(self.players, 2)` raises when the pool holds fewer than
two members; `insufficientMembers` is the explicit failure the design
document SS7 requires instead (the source never produces it). -/
inductive DrawError where
  | sampleLargerThanPopulation
  | insufficientMembers
  deriving DecidableEq, Repr

/-- `WaitingRoom.draw_two_players_to_game`: `random.sample(players, 2)`
selects two distinct positions `i`, `j` (nondeterminism parameters, to
be constrained by `i < |players|`, `j < |players|`, `i ≠ j` in the
theorems); each drawn player is discarded from the pool and its
`in_game` is set.  With fewer than two members, `random.sample` itself
fails. -/
def WaitingRoom.draw_two_players_to_game (r : WaitingRoom) (i j : Nat) :
    Except DrawError ((Player × Player) × WaitingRoom) :=
  if r.players.length < 2 then
    Except.error DrawError.sampleLargerThanPopulation
  else
    let a := r.players.getD i default
    let b := r.players.getD j default
    Except.ok (({ a with in_game := true }, { b with in_game := true }),
      { r with players := r.players.filter (fun q => q.oid != a.oid && q.oid != b.oid) })

/-- The per-player readiness record `{"units": ..., "quiz": ...}`. -/
structure Flags where
  units : Bool
  quiz : Bool
  deriving DecidableEq, Repr

/-- The two readiness kinds: `UNITS_READY` marks `"units"`, `SCORE`
marks `"quiz"`. -/
inductive Kind where
  | units
  | quiz
  deriving DecidableEq, Repr

/-- `dictionary[what_is_ready] = True` on the inner readiness record. -/
def Flags.set (f : Flags) : Kind → Flags
  | Kind.units => { f with units := true }
  | Kind.quiz => { f with quiz := true }

/-- Read one readiness flag. -/
def Flags.get (f : Flags) : Kind → Bool
  | Kind.units => f.units
  | Kind.quiz => f.quiz

/-- Python dict insertion (used for the comprehension in
`Game.__init__`): an existing key is overwritten in place, a new key is
appended. -/
def dictInsert (k : Sid) (v : Flags) : List (Sid × Flags) → List (Sid × Flags)
  | [] => [(k, v)]
  | (k1, v1) :: rest => if k1 = k then (k, v) :: rest else (k1, v1) :: dictInsert k v rest

/-- `Game`: two fixed players, the `is_finished` flag and the readiness
dict `players_quiz_and_units_ready` (keyed by player connection id). -/
structure Game where
  p1 : Player
  p2 : Player
  is_finished : Bool
  ready : List (Sid × Flags)
  deriving DecidableEq, Repr

/-- `Game.__init__`: `is_finished = False` and
`players_quiz_and_units_ready = {p.id: {"units": False, "quiz": False} for p in players}`.
(The `sio.on` handler registrations become the `Game.step` dispatch
below.) -/
def Game.init (p1 p2 : Player) : Game :=
  { p1 := p1, p2 := p2, is_finished := false,
    ready := dictInsert p2.id ⟨false, false⟩ (dictInsert p1.id ⟨false, false⟩ []) }

/-- `Game.send_game_results`: emit `GAME_RESULT` with `{message, logs}`
to each of the two players whose `in_game` is true, in order. -/
def Game.send_game_results (g : Game) (message : String) (logs : String) : List Event :=
  (if g.p1.in_game then [Event.emit GAME_RESULT message (some logs) (some g.p1.id)] else []) ++
  (if g.p2.in_game then [Event.emit GAME_RESULT message (some logs) (some g.p2.id)] else [])

/-- `Game._end_game_for_players`: send the results, then
`reset_after_game` on both players. -/
def Game.end_game_for_players (g : Game) (message : String) (logs : String) :
    Game × List Event :=
  ({ g with p1 := g.p1.reset_after_game, p2 := g.p2.reset_after_game },
   g.send_game_results message logs)

/-- `Game.battle`: emit `BATTLE_STARTED` (broadcast, no room), run the
simulator with `random_seed=17`, end the game for the players with the
simulator's message and logs, set `is_finished`. -/
def Game.battle (sim : Simulator) (g : Game) : Game × List Event :=
  let started := Event.emit BATTLE_STARTED
      ("Battle between " ++ g.p1.nick ++ " and " ++ g.p2.nick ++ " started!") none none
  let r := sim g.p1 g.p2 17
  let ended := g.end_game_for_players r.2.1 r.2.2
  ({ ended.1 with is_finished := true }, started :: Event.simulate 17 :: ended.2)

/-- The readiness scan in `Game.start_game_if_ready`: every flag of
every entry of the readiness dict is true. -/
def Game.allReady (g : Game) : Bool :=
  g.ready.all (fun kf => kf.2.units && kf.2.quiz)

/-- `Game.start_game_if_ready`: return early on the first false flag,
otherwise run `battle`. -/
def Game.start_game_if_ready (sim : Simulator) (g : Game) : Game × List Event :=
  if g.allReady then g.battle sim else (g, [])

/-- `Game.save_what_is_ready`: ignore a `sid` matching neither player;
otherwise set that player's flag in the readiness dict and re-evaluate
readiness. -/
def Game.save_what_is_ready (sim : Simulator) (g : Game) (sid : Sid) (what_is_ready : Kind) :
    Game × List Event :=
  if ¬ (g.p1.id = sid ∨ g.p2.id = sid) then (g, [])
  else
    let player_id := if g.p1.id = sid then g.p1.id else g.p2.id
    let g1 := { g with ready := g.ready.map (fun (kf : Sid × Flags) =>
        if kf.1 = player_id then (kf.1, kf.2.set what_is_ready) else kf) }
    g1.start_game_if_ready sim

/-- Handler registered for `SCORE` in `Game.__init__`. -/
def Game.quiz_results_ready (sim : Simulator) (g : Game) (sid : Sid) : Game × List Event :=
  g.save_what_is_ready sim sid Kind.quiz

/-- Handler registered for `UNITS_READY` in `Game.__init__`. -/
def Game.units_ready (sim : Simulator) (g : Game) (sid : Sid) : Game × List Event :=
  g.save_what_is_ready sim sid Kind.units

/-- One readiness signal: the sender's connection id and which of the
two handlers the transport dispatches it to. -/
abbrev Signal := Sid × Kind

/-- Delivery of one readiness signal through the handlers registered in
`Game.__init__`. -/
def Game.step (sim : Simulator) (g : Game) (s : Signal) : Game × List Event :=
  match s.2 with
  | Kind.units => g.units_ready sim s.1
  | Kind.quiz => g.quiz_results_ready sim s.1

/-- Delivery of a sequence of readiness signals, in order (SS5: signals
for a given session are processed in arrival order). -/
def Game.run (sim : Simulator) (g : Game) : List Signal → Game × List Event
  | [] => (g, [])
  | s :: rest =>
    let st := g.step sim s
    let rs := st.1.run sim rest
    (rs.1, st.2 ++ rs.2)

/-- `Game._all_players_connected`: false iff some player's `in_game` is
false. -/
def Game.all_players_connected (g : Game) : Bool :=
  g.p1.in_game && g.p2.in_game

/-- `Game.set_on_game_started`: if all players are connected, emit
`GAME_STARTED` privately to each; otherwise the match is a walkover and
the results `"Player disconnected, walkover"` with empty logs are sent
to whoever is still connected. -/
def Game.set_on_game_started (g : Game) : Game × List Event :=
  if g.all_players_connected then
    (g, [Event.emit GAME_STARTED "game started" none (some g.p1.id),
         Event.emit GAME_STARTED "game started" none (some g.p2.id)])
  else
    (g, g.send_game_results "Player disconnected, walkover" "")

/-- `GameApp.__init__`: the player registry, the waiting room and the
fresh-object-identity counter (Python allocates a fresh object per
`Player(nick, id)`). -/
structure GameApp where
  players : List Player
  waiting_room : WaitingRoom
  nextOid : Nat
  deriving DecidableEq, Repr

def GameApp.init : GameApp := ⟨[], WaitingRoom.init 2, 0⟩

/-- `GameApp.get_player_by_nick`: first registry entry with that
nickname, if any. -/
def GameApp.get_player_by_nick (app : GameApp) (nick : String) : Option Player :=
  app.players.find? (fun p => p.nick == nick)

/-- `GameApp.add_player`: reconnect an existing player with that
nickname (mutating the shared object, i.e. every occurrence of its
`oid`), or append a fresh player and enroll it in the waiting room. -/
def GameApp.add_player (app : GameApp) (nick : String) (id : Sid) : Player × GameApp :=
  match app.get_player_by_nick nick with
  | some existing_player =>
    let updated := existing_player.reconnect id
    (updated, { app with
        players := app.players.map (fun p =>
          if p.oid = existing_player.oid then updated else p),
        waiting_room := { app.waiting_room with
          players := app.waiting_room.players.map (fun p =>
            if p.oid = existing_player.oid then updated else p) } })
  | none =>
    let new_player : Player := ⟨app.nextOid, nick, id, false⟩
    (new_player, { app with
        players := app.players ++ [new_player],
        waiting_room := app.waiting_room.join new_player,
        nextOid := app.nextOid + 1 })

/-- Pure readiness-flag transition of one signal relative to the two
connection ids `a` (first player) and `b` (second player), mirroring the
dict update in `Game.save_what_is_ready`. -/
def applySig (a b : Sid) (f1 f2 : Flags) (s : Signal) : Flags × Flags :=
  if s.1 = a then (f1.set s.2, f2)
  else if s.1 = b then (f1, f2.set s.2)
  else (f1, f2)

/-- All four readiness flags of the two players. -/
def allTrue (f1 f2 : Flags) : Bool :=
  f1.units && f1.quiz && f2.units && f2.quiz

/-- Number of `battle` invocations a signal sequence triggers, computed
on the pure flag states. -/
def countFires (a b : Sid) (f1 f2 : Flags) : List Signal → Nat
  | [] => 0
  | s :: rest =>
    let n := applySig a b f1 f2 s
    (if (s.1 = a ∨ s.1 = b) ∧ allTrue n.1 n.2 = true then 1 else 0) +
      countFires a b n.1 n.2 rest

/-- Flag state determined by the set of signals already delivered. -/
def memFlags1 (x : Sid) (P : List Signal) : Flags :=
  ⟨decide ((x, Kind.units) ∈ P), decide ((x, Kind.quiz) ∈ P)⟩

/-- The sequence contains both kinds of readiness signal for both
connection ids. -/
def coversAll (a b : Sid) (L : List Signal) : Bool :=
  decide ((a, Kind.units) ∈ L) && decide ((a, Kind.quiz) ∈ L) &&
    decide ((b, Kind.units) ∈ L) && decide ((b, Kind.quiz) ∈ L)

/-- Pointwise ordering on readiness records: flags only ever go from
false to true. -/
def flagsLe (f g : Flags) : Prop :=
  (f.units = true → g.units = true) ∧ (f.quiz = true → g.quiz = true)

/-! ### Waiting-room lemmas -/

/-- `join` preserves the capacity bound, oid-uniqueness and the
capacity itself. -/
theorem join_preserves (r : WaitingRoom) (p : Player)
    (h1 : r.players.length ≤ r.capacity)
    (h2 : (r.players.map Player.oid).Nodup) :
    (r.join p).players.length ≤ r.capacity ∧
    ((r.join p).players.map Player.oid).Nodup ∧ (r.join p).capacity = r.capacity := by
  unfold WaitingRoom.join
  by_cases hc : (!r.is_full && !(r.players.any (fun q => q.oid == p.oid))) = true
  · rw [if_pos hc]
    simp only [Bool.and_eq_true, Bool.not_eq_true'] at hc
    obtain ⟨hfull, hmem⟩ := hc
    have hlen : r.players.length ≠ r.capacity := by
      simpa [WaitingRoom.is_full] using hfull
    have hmem2 : p.oid ∉ r.players.map Player.oid := by
      intro hin
      obtain ⟨q, hq, hqe⟩ := List.mem_map.mp hin
      have := List.any_eq_false.mp hmem q hq
      simp [hqe] at this
    refine ⟨?_, ?_, rfl⟩
    · simp only [List.length_append, List.length_cons, List.length_nil]
      omega
    · rw [List.map_append]
      refine List.Nodup.append h2 (List.nodup_singleton _) ?_
      intro x hx hx2
      simp only [List.map_cons, List.map_nil, List.mem_singleton] at hx2
      exact hmem2 (hx2 ▸ hx)
  · rw [if_neg hc]
    exact ⟨h1, h2, rfl⟩

/-- The `join` invariant, iterated over a call sequence. -/
theorem joinAll_preserves : ∀ (ps : List Player) (r : WaitingRoom),
    r.players.length ≤ r.capacity → (r.players.map Player.oid).Nodup →
    (r.joinAll ps).players.length ≤ r.capacity ∧
    ((r.joinAll ps).players.map Player.oid).Nodup ∧ (r.joinAll ps).capacity = r.capacity
  | [], r, h1, h2 => ⟨h1, h2, rfl⟩
  | p :: ps, r, h1, h2 => by
    obtain ⟨a1, a2, a3⟩ := join_preserves r p h1 h2
    have hrec := joinAll_preserves ps (r.join p) (a3 ▸ a1) a2
    have hfold : r.joinAll (p :: ps) = (r.join p).joinAll ps := by
      simp [WaitingRoom.joinAll]
    rw [hfold]
    exact ⟨hrec.1.trans_eq a3, hrec.2.1, hrec.2.2.trans a3⟩

/-- C6: for every WaitingRoom and every sequence of `join` calls,
`|members| ≤ capacity` holds after every call (i.e. after every prefix
of the arrival sequence), and each player appears in `members` at most
once (the member oids stay pairwise distinct). -/
theorem c6_waiting_room_capacity (capacity : Nat) (arrivals : List Player) (n : Nat) :
    ((WaitingRoom.init capacity).joinAll (arrivals.take n)).players.length ≤ capacity ∧
    (((WaitingRoom.init capacity).joinAll (arrivals.take n)).players.map Player.oid).Nodup := by
  obtain ⟨a1, a2, _⟩ := joinAll_preserves (arrivals.take n) (WaitingRoom.init capacity)
    (by simp [WaitingRoom.init]) (by simp [WaitingRoom.init])
  exact ⟨a1, a2⟩

/-- C2: drawing from a room with two valid distinct sample positions
returns two distinct players that were members before the call; both
are removed from the pool and both come back with `in_game = true`. -/
theorem c2_draw_pair (r : WaitingRoom) (i j : Nat)
    (hnd : (r.players.map Player.oid).Nodup)
    (hi : i < r.players.length) (hj : j < r.players.length) (hij : i ≠ j) :
    ∃ a b r2, r.draw_two_players_to_game i j = Except.ok ((a, b), r2) ∧
      a.oid ≠ b.oid ∧
      (∃ pa ∈ r.players, a = { pa with in_game := true }) ∧
      (∃ pb ∈ r.players, b = { pb with in_game := true }) ∧
      a.in_game = true ∧ b.in_game = true ∧
      (∀ q ∈ r2.players, q.oid ≠ a.oid ∧ q.oid ≠ b.oid) ∧
      r2.capacity = r.capacity := by
  have hlen : ¬ (r.players.length < 2) := by omega
  have hgi : r.players[i]? = some (r.players[i]) := List.getElem?_eq_getElem hi
  have hgj : r.players[j]? = some (r.players[j]) := List.getElem?_eq_getElem hj
  have hoid : r.players[i].oid ≠ r.players[j].oid := by
    intro hcontra
    apply hij
    have hi2 : i < (r.players.map Player.oid).length := by simpa using hi
    have hj2 : j < (r.players.map Player.oid).length := by simpa using hj
    have hmapped : (r.players.map Player.oid)[i] = (r.players.map Player.oid)[j] := by
      simpa [List.getElem_map] using hcontra
    exact (hnd.getElem_inj_iff).mp hmapped
  refine ⟨{ r.players[i] with in_game := true }, { r.players[j] with in_game := true },
    { r with players := r.players.filter (fun q =>
        q.oid != r.players[i].oid && q.oid != r.players[j].oid) }, ?_, ?_, ?_, ?_, rfl, rfl, ?_, rfl⟩
  · unfold WaitingRoom.draw_two_players_to_game
    rw [if_neg hlen]
    simp [List.getD, hgi, hgj]
  · simpa using hoid
  · exact ⟨r.players[i], List.getElem_mem hi, rfl⟩
  · exact ⟨r.players[j], List.getElem_mem hj, rfl⟩
  · intro q hq
    have := (List.mem_filter.mp hq).2
    simp only [Bool.and_eq_true, bne_iff_ne, ne_eq] at this
    exact this

/-- C3 (code divergence): drawing from a room with a single member hits
the unchecked `random.sample`, which fails with its own sample-size
error, not with the explicit `InsufficientMembers` condition the design
document requires. -/
theorem c3_draw_unchecked_sample :
    (WaitingRoom.mk [⟨0, "alice", "a", false⟩] 2).draw_two_players_to_game 0 1 =
      Except.error DrawError.sampleLargerThanPopulation ∧
    (WaitingRoom.mk [⟨0, "alice", "a", false⟩] 2).draw_two_players_to_game 0 1 ≠
      Except.error DrawError.insufficientMembers := by
  refine ⟨rfl, fun h => ?_⟩
  have h2 : (Except.error DrawError.sampleLargerThanPopulation :
      Except DrawError ((Player × Player) × WaitingRoom)) =
      Except.error DrawError.insufficientMembers := h
  simp at h2

/-! ### Walkover path -/

/-- C4: when `set_on_game_started` finds some player not connected, a
`GAME_RESULT` with the walkover text and empty logs goes exactly to the
still-connected players, no `GAME_STARTED` or `BATTLE_STARTED` is
emitted, the simulator is never invoked, and the Game state is
untouched. -/
theorem c4_walkover_messages (g : Game)
    (h : ¬ (g.p1.in_game = true ∧ g.p2.in_game = true)) :
    (g.set_on_game_started).1 = g ∧
    (∀ e ∈ (g.set_on_game_started).2, ∃ p, (p = g.p1 ∨ p = g.p2) ∧ p.in_game = true ∧
        e = Event.emit GAME_RESULT "Player disconnected, walkover" (some "") (some p.id)) ∧
    (∀ p, (p = g.p1 ∨ p = g.p2) → p.in_game = true →
        Event.emit GAME_RESULT "Player disconnected, walkover" (some "") (some p.id) ∈
          (g.set_on_game_started).2) ∧
    (∀ m lg rm, Event.emit GAME_STARTED m lg rm ∉ (g.set_on_game_started).2) ∧
    (∀ m lg rm, Event.emit BATTLE_STARTED m lg rm ∉ (g.set_on_game_started).2) ∧
    (∀ seed, Event.simulate seed ∉ (g.set_on_game_started).2) := by
  have hcon : g.all_players_connected = false := by
    unfold Game.all_players_connected
    cases h1 : g.p1.in_game <;> cases h2 : g.p2.in_game <;> simp_all
  have hout : g.set_on_game_started =
      (g, g.send_game_results "Player disconnected, walkover" "") := by
    simp [Game.set_on_game_started, hcon]
  rw [hout]
  refine ⟨rfl, ?_, ?_, ?_, ?_, ?_⟩
  · intro e he
    unfold Game.send_game_results at he
    rcases List.mem_append.mp he with he1 | he1
    · refine ⟨g.p1, Or.inl rfl, ?_, ?_⟩ <;>
        (cases h1 : g.p1.in_game <;> simp [h1] at he1 <;> simp [he1])
    · refine ⟨g.p2, Or.inr rfl, ?_, ?_⟩ <;>
        (cases h2 : g.p2.in_game <;> simp [h2] at he1 <;> simp [he1])
  · rintro p (rfl | rfl) hp <;> unfold Game.send_game_results <;> simp [hp]
  · intro m lg rm hmem
    unfold Game.send_game_results at hmem
    cases h1 : g.p1.in_game <;> cases h2 : g.p2.in_game <;>
      simp [h1, h2, GAME_STARTED, GAME_RESULT] at hmem
  · intro m lg rm hmem
    unfold Game.send_game_results at hmem
    cases h1 : g.p1.in_game <;> cases h2 : g.p2.in_game <;>
      simp [h1, h2, BATTLE_STARTED, GAME_RESULT] at hmem
  · intro seed hmem
    unfold Game.send_game_results at hmem
    cases h1 : g.p1.in_game <;> cases h2 : g.p2.in_game <;>
      simp [h1, h2] at hmem

/-- Witness for C4 at a concrete walkover game: player `bob` already
disconnected, `alice` still connected. -/
theorem c4_walkover_messages_witness :
    Event.emit GAME_RESULT "Player disconnected, walkover" (some "") (some "a") ∈
      ((Game.init ⟨0, "alice", "a", true⟩ ⟨1, "bob", "b", false⟩).set_on_game_started).2 :=
  (c4_walkover_messages (Game.init ⟨0, "alice", "a", true⟩ ⟨1, "bob", "b", false⟩)
    (by decide)).2.2.1 ⟨0, "alice", "a", true⟩ (Or.inl rfl) rfl

/-- C10: the walkover branch of `set_on_game_started` has no effect on
the Game: `is_finished`, both player records (hence their `in_game`
flags) and the readiness map are unchanged, and its only output is the
`GAME_RESULT` walkover emission to the still-connected players. -/
theorem c10_walkover_frame (g : Game) (h : g.all_players_connected = false) :
    (g.set_on_game_started).1.is_finished = g.is_finished ∧
    (g.set_on_game_started).1.p1 = g.p1 ∧
    (g.set_on_game_started).1.p2 = g.p2 ∧
    (g.set_on_game_started).1.ready = g.ready ∧
    (g.set_on_game_started).2 =
      (if g.p1.in_game = true
        then [Event.emit GAME_RESULT "Player disconnected, walkover" (some "") (some g.p1.id)]
        else []) ++
      (if g.p2.in_game = true
        then [Event.emit GAME_RESULT "Player disconnected, walkover" (some "") (some g.p2.id)]
        else []) := by
  have hout : g.set_on_game_started =
      (g, g.send_game_results "Player disconnected, walkover" "") := by
    simp [Game.set_on_game_started, h]
  rw [hout]
  exact ⟨rfl, rfl, rfl, rfl, rfl⟩

/-- Witness for C10 at a concrete walkover game. -/
theorem c10_walkover_frame_witness :
    ((Game.init ⟨0, "alice", "a", true⟩ ⟨1, "bob", "b", false⟩).set_on_game_started).1.ready =
      (Game.init ⟨0, "alice", "a", true⟩ ⟨1, "bob", "b", false⟩).ready :=
  (c10_walkover_frame (Game.init ⟨0, "alice", "a", true⟩ ⟨1, "bob", "b", false⟩)
    (by decide)).2.2.2.1

/-! ### Full battle path -/

/-- C5: on a fully-ready Game whose two players are both connected,
`battle` broadcasts `BATTLE_STARTED`, invokes the outcome engine exactly
once with seed 17, emits `GAME_RESULT` with the identical simulator
message and log to both players, sets `is_finished` and resets both
players' `in_game`. -/
theorem c5_battle_effects (sim : Simulator) (g : Game)
    (hready : g.allReady = true) (h1 : g.p1.in_game = true) (h2 : g.p2.in_game = true) :
    (g.battle sim).2 =
      [Event.emit BATTLE_STARTED
          ("Battle between " ++ g.p1.nick ++ " and " ++ g.p2.nick ++ " started!") none none,
        Event.simulate 17,
        Event.emit GAME_RESULT (sim g.p1 g.p2 17).2.1 (some (sim g.p1 g.p2 17).2.2)
          (some g.p1.id),
        Event.emit GAME_RESULT (sim g.p1 g.p2 17).2.1 (some (sim g.p1 g.p2 17).2.2)
          (some g.p2.id)] ∧
    simCount (g.battle sim).2 = 1 ∧
    (g.battle sim).1.is_finished = true ∧
    (g.battle sim).1.p1.in_game = false ∧
    (g.battle sim).1.p2.in_game = false := by
  refine ⟨?_, ?_, rfl, rfl, rfl⟩
  · simp [Game.battle, Game.end_game_for_players, Game.send_game_results, h1, h2]
  · simp [Game.battle, Game.end_game_for_players, Game.send_game_results, h1, h2,
      simCount, List.countP_cons]

/-- Witness for C5 at a concrete ready game and a concrete simulator. -/
theorem c5_battle_effects_witness :
    simCount ((Game.mk ⟨0, "alice", "a", true⟩ ⟨1, "bob", "b", true⟩ false
        [("a", ⟨true, true⟩), ("b", ⟨true, true⟩)]).battle
      (fun _ _ _ => (1, "alice won", "log"))).2 = 1 :=
  (c5_battle_effects (fun _ _ _ => (1, "alice won", "log"))
    (Game.mk ⟨0, "alice", "a", true⟩ ⟨1, "bob", "b", true⟩ false
      [("a", ⟨true, true⟩), ("b", ⟨true, true⟩)])
    (by decide) rfl rfl).2.1

/-! ### Readiness-map invariants -/

theorem flagsLe_refl (f : Flags) : flagsLe f f := ⟨fun h => h, fun h => h⟩

theorem flagsLe_set (f : Flags) (k : Kind) : flagsLe f (f.set k) := by
  cases k <;> exact ⟨fun h => by simp [Flags.set, h], fun h => by simp [Flags.set, h]⟩

/-- `battle` never touches the readiness dict. -/
theorem battle_ready (sim : Simulator) (g : Game) : (g.battle sim).1.ready = g.ready := rfl

/-- `start_game_if_ready` never touches the readiness dict. -/
theorem start_if_ready_ready (sim : Simulator) (g : Game) :
    (g.start_game_if_ready sim).1.ready = g.ready := by
  unfold Game.start_game_if_ready
  split
  · exact battle_ready sim g
  · rfl

/-- `save_what_is_ready` keeps the key sequence of the readiness dict
and only raises flags. -/
theorem save_ready_keys_mono (sim : Simulator) (g : Game) (sid : Sid) (k : Kind) :
    (g.save_what_is_ready sim sid k).1.ready.map Prod.fst = g.ready.map Prod.fst ∧
    List.Forall₂ (fun (e f : Sid × Flags) => flagsLe e.2 f.2) g.ready
      (g.save_what_is_ready sim sid k).1.ready := by
  unfold Game.save_what_is_ready
  by_cases hm : ¬ (g.p1.id = sid ∨ g.p2.id = sid)
  · rw [if_pos hm]
    exact ⟨rfl, List.forall₂_same.mpr (fun x _ => flagsLe_refl x.2)⟩
  · rw [if_neg hm]
    rw [start_if_ready_ready]
    constructor
    · rw [List.map_map]
      apply List.map_congr_left
      intro x _
      by_cases hk : x.1 = (if g.p1.id = sid then g.p1.id else g.p2.id) <;> simp [hk]
    · rw [List.forall₂_map_right_iff]
      apply List.forall₂_same.mpr
      intro x _
      by_cases hk : x.1 = (if g.p1.id = sid then g.p1.id else g.p2.id) <;>
        simp [hk, flagsLe_refl, flagsLe_set]

/-- C9: the readiness map is created with exactly one entry per distinct
player connection id, both flags false; every Game operation preserves
its keys and only ever raises flags (monotone false to true), and the
non-signal operations leave it untouched. -/
theorem c9_readiness_monotone (sim : Simulator) (p1 p2 : Player) :
    ((Game.init p1 p2).ready =
      if p1.id = p2.id then [(p1.id, ⟨false, false⟩)]
      else [(p1.id, ⟨false, false⟩), (p2.id, ⟨false, false⟩)]) ∧
    (∀ (g : Game) (sid : Sid) (k : Kind),
      (g.save_what_is_ready sim sid k).1.ready.map Prod.fst = g.ready.map Prod.fst ∧
      List.Forall₂ (fun (e f : Sid × Flags) => flagsLe e.2 f.2) g.ready
        (g.save_what_is_ready sim sid k).1.ready) ∧
    (∀ g : Game, (g.battle sim).1.ready = g.ready) ∧
    (∀ g : Game, (g.set_on_game_started).1.ready = g.ready) ∧
    (∀ g : Game, (g.start_game_if_ready sim).1.ready = g.ready) := by
  refine ⟨?_, fun g sid k => save_ready_keys_mono sim g sid k, fun g => battle_ready sim g,
    ?_, fun g => start_if_ready_ready sim g⟩
  · by_cases hid : p1.id = p2.id <;> simp [Game.init, dictInsert, hid]
  · intro g
    unfold Game.set_on_game_started
    split <;> rfl

/-! ### Registry reconnection -/

/-- Replacing by oid when every oid in the list differs is a no-op
(mutating an object not referenced by the list). -/
theorem map_fresh (n : Nat) (q : Player) (l : List Player) (h : ∀ p ∈ l, p.oid ≠ n) :
    l.map (fun p => if p.oid = n then q else p) = l := by
  conv_rhs => rw [← List.map_id l]
  apply List.map_congr_left
  intro p hp
  simp [h p hp]

/-- Replacing, by oid, the entry that `find?` locates for a nickname
with another player of the same nickname keeps it the unique match for
that nickname and preserves the oid sequence. -/
theorem replace_found (nick : String) : ∀ (l : List Player) (e q : Player),
    (l.map Player.oid).Nodup →
    (l.filter (fun p => p.nick == nick)).length ≤ 1 →
    l.find? (fun p => p.nick == nick) = some e →
    q.oid = e.oid → q.nick = nick →
    (l.map (fun p => if p.oid = e.oid then q else p)).find? (fun p => p.nick == nick) = some q ∧
    (l.map (fun p => if p.oid = e.oid then q else p)).filter (fun p => p.nick == nick) = [q] ∧
    (l.map (fun p => if p.oid = e.oid then q else p)).map Player.oid = l.map Player.oid
  | [], e, q, hnd, hcnt, hfind, hoid, hnick => by simp [List.find?] at hfind
  | h :: t, e, q, hnd, hcnt, hfind, hoid, hnick => by
    by_cases hn : (h.nick == nick) = true
    · rw [List.find?_cons_of_pos t hn] at hfind
      have he : h = e := by injection hfind
      subst he
      have hoid2 : ∀ p ∈ t, p.oid ≠ h.oid := by
        intro p hp hpe
        have : h.oid ∈ t.map Player.oid := List.mem_map.mpr ⟨p, hp, hpe⟩
        simp only [List.map_cons, List.nodup_cons] at hnd
        exact hnd.1 this
      have htail : t.map (fun p => if p.oid = h.oid then q else p) = t := map_fresh h.oid q t hoid2
      have hhead : (if h.oid = h.oid then q else h) = q := if_pos rfl
      have hqn : (q.nick == nick) = true := by simp [hnick]
      have hft : t.filter (fun p => p.nick == nick) = [] := by
        rw [← List.length_eq_zero]
        have hc2 := hcnt
        rw [List.filter_cons, if_pos hn] at hc2
        simp only [List.length_cons] at hc2
        omega
      refine ⟨?_, ?_, ?_⟩
      · rw [List.map_cons, hhead, htail]
        exact List.find?_cons_of_pos t hqn
      · rw [List.map_cons, hhead, htail, List.filter_cons, if_pos hqn, hft]
      · rw [List.map_cons, hhead, htail, List.map_cons, List.map_cons, hoid]
    · rw [List.find?_cons_of_neg t hn] at hfind
      have hmem : e ∈ t := List.mem_of_find?_eq_some hfind
      have hne : h.oid ≠ e.oid := by
        intro hpe
        have : e.oid ∈ t.map Player.oid := List.mem_map.mpr ⟨e, hmem, rfl⟩
        simp only [List.map_cons, List.nodup_cons] at hnd
        exact hnd.1 (hpe ▸ this)
      have hhead : (if h.oid = e.oid then q else h) = h := if_neg hne
      have hnd2 : (t.map Player.oid).Nodup := by
        simp only [List.map_cons, List.nodup_cons] at hnd
        exact hnd.2
      have hcnt2 : (t.filter (fun p => p.nick == nick)).length ≤ 1 := by
        rw [List.filter_cons, if_neg hn] at hcnt
        exact hcnt
      obtain ⟨ih1, ih2, ih3⟩ := replace_found nick t e q hnd2 hcnt2 hfind hoid hnick
      refine ⟨?_, ?_, ?_⟩
      · rw [List.map_cons, hhead,
          @List.find?_cons_of_neg _ (fun p => p.nick == nick) h
            (t.map (fun p => if p.oid = e.oid then q else p)) hn]
        exact ih1
      · rw [List.map_cons, hhead, List.filter_cons, if_neg hn]
        exact ih2
      · rw [List.map_cons, hhead, List.map_cons, List.map_cons, ih3]

/-- C7: calling `add_player` twice with the same nickname and two
different connection ids yields the same logical player (same object
identity) both times, with its connection id updated to the second
value, and the registry holds exactly one entry with that nickname. -/
theorem c7_add_player_reconnect (app : GameApp) (nick : String) (id1 id2 : Sid)
    (hids : id1 ≠ id2)
    (hnd : (app.players.map Player.oid).Nodup)
    (hfresh : ∀ p ∈ app.players, p.oid < app.nextOid)
    (hcnt : (app.players.filter (fun p => p.nick == nick)).length ≤ 1) :
    (app.add_player nick id1).1.oid = ((app.add_player nick id1).2.add_player nick id2).1.oid ∧
    (app.add_player nick id1).1.nick = nick ∧
    ((app.add_player nick id1).2.add_player nick id2).1.nick = nick ∧
    ((app.add_player nick id1).2.add_player nick id2).1.id = id2 ∧
    ((app.add_player nick id1).2.add_player nick id2).2.players.filter
        (fun p => p.nick == nick) =
      [((app.add_player nick id1).2.add_player nick id2).1] := by
  cases hfind : app.get_player_by_nick nick with
  | none =>
    have hfind2 : app.players.find? (fun p => p.nick == nick) = none := hfind
    have hfl : app.players.filter (fun p => p.nick == nick) = [] :=
      List.filter_eq_nil_iff.mpr (List.find?_eq_none.mp hfind2)
    have e1 : app.add_player nick id1 = (⟨app.nextOid, nick, id1, false⟩,
        { app with players := app.players ++ [⟨app.nextOid, nick, id1, false⟩],
                   waiting_room := app.waiting_room.join ⟨app.nextOid, nick, id1, false⟩,
                   nextOid := app.nextOid + 1 }) := by
      unfold GameApp.add_player
      rw [hfind]
    have hfind3 : (app.players ++ [(⟨app.nextOid, nick, id1, false⟩ : Player)]).find?
        (fun p => p.nick == nick) = some ⟨app.nextOid, nick, id1, false⟩ := by
      rw [List.find?_append, hfind2]
      simp [List.find?]
    have hmap : (app.players ++ [(⟨app.nextOid, nick, id1, false⟩ : Player)]).map
        (fun p => if p.oid = app.nextOid then
          Player.reconnect ⟨app.nextOid, nick, id1, false⟩ id2 else p) =
        app.players ++ [⟨app.nextOid, nick, id2, false⟩] := by
      rw [List.map_append]
      congr 1
      · exact map_fresh app.nextOid _ app.players (fun p hp => Nat.ne_of_lt (hfresh p hp))
      · simp [Player.reconnect]
    rw [e1]
    unfold GameApp.add_player GameApp.get_player_by_nick
    simp only [hfind3]
    refine ⟨by trivial, by trivial, by trivial, by trivial, ?_⟩
    rw [hmap, List.filter_append, hfl]
    simp [Player.reconnect]
  | some e =>
    have hfind2 : app.players.find? (fun p => p.nick == nick) = some e := hfind
    have henick : e.nick = nick := by
      have := List.find?_some hfind2
      simpa using this
    have e1 : app.add_player nick id1 = (e.reconnect id1,
        { app with
            players := app.players.map (fun p => if p.oid = e.oid then e.reconnect id1 else p),
            waiting_room := { app.waiting_room with
              players := app.waiting_room.players.map
                (fun p => if p.oid = e.oid then e.reconnect id1 else p) } }) := by
      unfold GameApp.add_player
      rw [hfind]
    obtain ⟨r1, r2, r3⟩ := replace_found nick app.players e (e.reconnect id1) hnd hcnt hfind2
      rfl (by simp [Player.reconnect, henick])
    have hnd2 : ((app.players.map (fun p => if p.oid = e.oid then e.reconnect id1 else p)).map
        Player.oid).Nodup := by rw [r3]; exact hnd
    have hcnt2 : ((app.players.map (fun p => if p.oid = e.oid then e.reconnect id1 else p)).filter
        (fun p => p.nick == nick)).length ≤ 1 := by rw [r2]; simp
    obtain ⟨s1, s2, s3⟩ := replace_found nick
      (app.players.map (fun p => if p.oid = e.oid then e.reconnect id1 else p))
      (e.reconnect id1) ((e.reconnect id1).reconnect id2) hnd2 hcnt2 r1
      rfl (by simp [Player.reconnect, henick])
    rw [e1]
    unfold GameApp.add_player GameApp.get_player_by_nick
    simp only [r1]
    refine ⟨by trivial, ?_, ?_, by trivial, ?_⟩
    · simp [Player.reconnect, henick]
    · simp [Player.reconnect, henick]
    · simpa [Player.reconnect] using s2

/-- Witness for C7: a fresh registry, `alice` registering from
connection `s1` and again from connection `s2`. -/
theorem c7_add_player_reconnect_witness :
    ((GameApp.init.add_player "alice" "s1").2.add_player "alice" "s2").1.id = "s2" :=
  (c7_add_player_reconnect GameApp.init "alice" "s1" "s2" (by decide) (by simp [GameApp.init])
    (by simp [GameApp.init]) (by simp [GameApp.init])).2.2.2.1

/-! ### Readiness signal dynamics -/

/-- The membership flag state absorbs one more delivered signal. -/
theorem applySig_mem (a b : Sid) (hab : a ≠ b) (P : List Signal) (s : Signal) :
    applySig a b (memFlags1 a P) (memFlags1 b P) s =
      (memFlags1 a (s :: P), memFlags1 b (s :: P)) := by
  rcases s with ⟨x, k⟩
  by_cases hxa : x = a
  · subst hxa
    cases k <;>
      simp [applySig, memFlags1, Flags.set, List.mem_cons, hab, Ne.symm hab]
  · by_cases hxb : x = b
    · subst hxb
      cases k <;>
        simp [applySig, memFlags1, Flags.set, List.mem_cons, hxa, hab, Ne.symm hab]
    · cases k <;>
        simp [applySig, memFlags1, List.mem_cons, hxa, hxb, Ne.symm hxa, Ne.symm hxb]

/-- Full readiness of the membership flag state is exactly coverage of
the delivered set. -/
theorem allTrue_memFlags (a b : Sid) (Q : List Signal) :
    allTrue (memFlags1 a Q) (memFlags1 b Q) = coversAll a b Q := rfl

theorem coversAll_iff (a b : Sid) (L : List Signal) :
    coversAll a b L = true ↔ ((a, Kind.units) ∈ L ∧ (a, Kind.quiz) ∈ L ∧
      (b, Kind.units) ∈ L ∧ (b, Kind.quiz) ∈ L) := by
  simp [coversAll, and_assoc]

theorem coversAll_sublist (a b : Sid) {L1 L2 : List Signal}
    (h : ∀ s : Signal, s ∈ L1 → s ∈ L2) (hc : coversAll a b L1 = true) :
    coversAll a b L2 = true := by
  rw [coversAll_iff] at hc ⊢
  exact ⟨h _ hc.1, h _ hc.2.1, h _ hc.2.2.1, h _ hc.2.2.2⟩

theorem coversAll_congr (a b : Sid) {L1 L2 : List Signal}
    (h : ∀ t : Signal, t ∈ L1 ↔ t ∈ L2) : coversAll a b L1 = coversAll a b L2 := by
  unfold coversAll
  rw [decide_eq_decide.mpr (h (a, Kind.units)), decide_eq_decide.mpr (h (a, Kind.quiz)),
    decide_eq_decide.mpr (h (b, Kind.units)), decide_eq_decide.mpr (h (b, Kind.quiz))]

theorem coversAll_cons_unmatched (a b : Sid) (s : Signal) (h1 : s.1 ≠ a) (h2 : s.1 ≠ b)
    (Q : List Signal) : coversAll a b (s :: Q) = coversAll a b Q := by
  rcases s with ⟨x, k⟩
  simp only at h1 h2
  unfold coversAll
  have e1 : ((a, Kind.units) ∈ (x, k) :: Q) ↔ ((a, Kind.units) ∈ Q) := by
    simp [List.mem_cons, Ne.symm h1]
  have e2 : ((a, Kind.quiz) ∈ (x, k) :: Q) ↔ ((a, Kind.quiz) ∈ Q) := by
    simp [List.mem_cons, Ne.symm h1]
  have e3 : ((b, Kind.units) ∈ (x, k) :: Q) ↔ ((b, Kind.units) ∈ Q) := by
    simp [List.mem_cons, Ne.symm h2]
  have e4 : ((b, Kind.quiz) ∈ (x, k) :: Q) ↔ ((b, Kind.quiz) ∈ Q) := by
    simp [List.mem_cons, Ne.symm h2]
  rw [decide_eq_decide.mpr e1, decide_eq_decide.mpr e2, decide_eq_decide.mpr e3,
    decide_eq_decide.mpr e4]

/-- A matching signal is one of the four readiness signals, so a
covered past contains it. -/
theorem matching_mem_of_covers (a b : Sid) (s : Signal) (hm : s.1 = a ∨ s.1 = b)
    (P : List Signal) (hc : coversAll a b P = true) : s ∈ P := by
  rw [coversAll_iff] at hc
  rcases s with ⟨x, k⟩
  rcases hm with rfl | rfl
  · cases k
    · exact hc.1
    · exact hc.2.1
  · cases k
    · exact hc.2.2.1
    · exact hc.2.2.2

/-- Characterization of the number of `battle` firings over a
duplicate-free signal sequence `L`, with `P` the already-delivered past:
exactly one firing iff the whole history becomes covered while the past
alone was not. -/
theorem countFires_mem (a b : Sid) (hab : a ≠ b) : ∀ (L P : List Signal), L.Nodup →
    (∀ s ∈ L, s ∉ P) →
    countFires a b (memFlags1 a P) (memFlags1 b P) L =
      if coversAll a b (L ++ P) = true ∧ coversAll a b P = false then 1 else 0
  | [], P, _, _ => by
    have hno : ¬ (coversAll a b ([] ++ P) = true ∧ coversAll a b P = false) := by
      rintro ⟨hc1, hc2⟩
      rw [List.nil_append, hc2] at hc1
      cases hc1
    simp only [countFires, if_neg hno]
  | s :: L, P, hnd, hdisj => by
    have hndL : L.Nodup := hnd.of_cons
    have hsP : s ∉ P := hdisj s (List.mem_cons_self s L)
    have hdisj2 : ∀ t ∈ L, t ∉ (s :: P) := by
      intro t ht
      rw [List.mem_cons]
      rintro (rfl | htP)
      · exact (List.nodup_cons.mp hnd).1 ht
      · exact hdisj t (List.mem_cons_of_mem s ht) htP
    have ih := countFires_mem a b hab L (s :: P) hndL hdisj2
    have hperm : coversAll a b (L ++ s :: P) = coversAll a b (s :: L ++ P) := by
      apply coversAll_congr
      intro t
      simp only [List.mem_append, List.mem_cons]
      tauto
    simp only [countFires, applySig_mem a b hab P s, allTrue_memFlags]
    rw [ih, hperm]
    by_cases hfire : (s.1 = a ∨ s.1 = b) ∧ coversAll a b (s :: P) = true
    · rw [if_pos hfire]
      have hnotsnd : ¬ (coversAll a b (s :: L ++ P) = true ∧
          coversAll a b (s :: P) = false) := by
        rintro ⟨_, h2⟩
        rw [hfire.2] at h2
        cases h2
      rw [if_neg hnotsnd]
      have hcovL : coversAll a b (s :: L ++ P) = true := by
        apply coversAll_sublist a b _ hfire.2
        intro t ht
        rw [List.mem_cons] at ht
        rcases ht with rfl | ht
        · exact List.mem_cons_self t (L ++ P)
        · exact List.mem_cons_of_mem s (List.mem_append_right L ht)
      have hcovP : coversAll a b P = false := by
        cases hP : coversAll a b P
        · rfl
        · exact absurd (matching_mem_of_covers a b s hfire.1 P hP) hsP
      rw [if_pos ⟨hcovL, hcovP⟩]
    · rw [if_neg hfire]
      by_cases hm : s.1 = a ∨ s.1 = b
      · have hcsp : coversAll a b (s :: P) = false := by
          cases hc : coversAll a b (s :: P)
          · rfl
          · exact absurd ⟨hm, hc⟩ hfire
        have hcp : coversAll a b P = false := by
          cases hc : coversAll a b P
          · rfl
          · have : coversAll a b (s :: P) = true :=
              coversAll_sublist a b (fun t ht => List.mem_cons_of_mem s ht) hc
            rw [this] at hcsp
            cases hcsp
        rw [hcsp, hcp]
        omega
      · push_neg at hm
        rw [coversAll_cons_unmatched a b s hm.1 hm.2 P]
        omega

/-- `battle` resets the two players, sets `is_finished` and keeps the
readiness dict. -/
theorem battle_state (sim : Simulator) (g : Game) :
    (g.battle sim).1 = ⟨g.p1.reset_after_game, g.p2.reset_after_game, true, g.ready⟩ := rfl

/-- Every `battle` invocation records exactly one simulator call. -/
theorem battle_simCount (sim : Simulator) (g : Game) : simCount (g.battle sim).2 = 1 := by
  unfold Game.battle Game.end_game_for_players Game.send_game_results simCount
  cases hp1 : g.p1.in_game <;> cases hp2 : g.p2.in_game <;>
    simp [hp1, hp2, List.countP_cons, List.countP_append]

/-- The readiness scan over a two-entry dict is `allTrue`. -/
theorem allReady_pair (p1 p2 : Player) (fin : Bool) (c d : Sid) (f1 f2 : Flags) :
    Game.allReady ⟨p1, p2, fin, [(c, f1), (d, f2)]⟩ = allTrue f1 f2 := by
  rcases f1 with ⟨u1, q1⟩
  rcases f2 with ⟨u2, q2⟩
  cases u1 <;> cases q1 <;> cases u2 <;> cases q2 <;> rfl

/-- One readiness signal on a Game in two-entry template form: a
non-matching sid is dropped; a matching one updates the flags via
`applySig` and runs `battle` iff that leaves all four flags true. -/
theorem step_template (sim : Simulator) (a b : Sid) (p1 p2 : Player) (fin : Bool)
    (f1 f2 : Flags) (hab : a ≠ b) (h1 : p1.id = a) (h2 : p2.id = b) (s : Signal) :
    Game.step sim ⟨p1, p2, fin, [(a, f1), (b, f2)]⟩ s =
      if s.1 = a ∨ s.1 = b then
        (if allTrue (applySig a b f1 f2 s).1 (applySig a b f1 f2 s).2 = true then
          Game.battle sim ⟨p1, p2, fin,
            [(a, (applySig a b f1 f2 s).1), (b, (applySig a b f1 f2 s).2)]⟩
        else (⟨p1, p2, fin, [(a, (applySig a b f1 f2 s).1), (b, (applySig a b f1 f2 s).2)]⟩,
          []))
      else (⟨p1, p2, fin, [(a, f1), (b, f2)]⟩, []) := by
  subst h1
  subst h2
  rcases s with ⟨x, k⟩
  have hstep : Game.step sim ⟨p1, p2, fin, [(p1.id, f1), (p2.id, f2)]⟩ (x, k) =
      Game.save_what_is_ready sim ⟨p1, p2, fin, [(p1.id, f1), (p2.id, f2)]⟩ x k := by
    cases k <;> rfl
  rw [hstep]
  unfold Game.save_what_is_ready Game.start_game_if_ready
  by_cases hm1 : x = p1.id
  · subst hm1
    simp [applySig, allReady_pair, Ne.symm hab, List.map_cons]
  · by_cases hm2 : x = p2.id
    · subst hm2
      simp [applySig, allReady_pair, hab, hm1, Ne.symm hab, Ne.symm hm1, List.map_cons]
    · simp [applySig, hm1, hm2, Ne.symm hm1, Ne.symm hm2]

theorem simCount_append (l1 l2 : List Event) :
    simCount (l1 ++ l2) = simCount l1 + simCount l2 :=
  List.countP_append _ _ _

/-- Bridge between the embedded `Game.run` and the pure firing count:
on a two-entry Game whose readiness keys are the two distinct player
ids, the number of simulator invocations over a signal sequence is
`countFires`. -/
theorem run_simCount (sim : Simulator) :
    ∀ (L : List Signal) (a b : Sid) (p1 p2 : Player) (fin : Bool) (f1 f2 : Flags),
      a ≠ b → p1.id = a → p2.id = b →
      simCount ((Game.run sim ⟨p1, p2, fin, [(a, f1), (b, f2)]⟩ L).2) =
        countFires a b f1 f2 L
  | [], a, b, p1, p2, fin, f1, f2, hab, h1, h2 => by
    simp [Game.run, simCount, countFires]
  | s :: L, a, b, p1, p2, fin, f1, f2, hab, h1, h2 => by
    have hrec1 := run_simCount sim L a b p1.reset_after_game p2.reset_after_game true
      (applySig a b f1 f2 s).1 (applySig a b f1 f2 s).2 hab h1 h2
    have hrec2 := run_simCount sim L a b p1 p2 fin
      (applySig a b f1 f2 s).1 (applySig a b f1 f2 s).2 hab h1 h2
    have hrec3 := run_simCount sim L a b p1 p2 fin f1 f2 hab h1 h2
    simp only [Game.run]
    rw [step_template sim a b p1 p2 fin f1 f2 hab h1 h2 s]
    by_cases hm : s.1 = a ∨ s.1 = b
    · rw [if_pos hm]
      by_cases hrdy : allTrue (applySig a b f1 f2 s).1 (applySig a b f1 f2 s).2 = true
      · rw [if_pos hrdy]
        have hstate : (Game.battle sim ⟨p1, p2, fin,
            [(a, (applySig a b f1 f2 s).1), (b, (applySig a b f1 f2 s).2)]⟩).1 =
            ⟨p1.reset_after_game, p2.reset_after_game, true,
              [(a, (applySig a b f1 f2 s).1), (b, (applySig a b f1 f2 s).2)]⟩ := rfl
        rw [simCount_append, battle_simCount, hstate, hrec1]
        simp only [countFires]
        rw [if_pos ⟨hm, hrdy⟩]
      · rw [if_neg hrdy]
        rw [simCount_append, hrec2]
        simp only [countFires, simCount, List.countP_nil]
        rw [if_neg (fun hc => hrdy hc.2)]
    · rw [if_neg hm]
      rw [simCount_append, hrec3]
      push_neg at hm
      have happ : applySig a b f1 f2 s = (f1, f2) := by
        simp [applySig, hm.1, hm.2]
      simp only [countFires, happ, simCount, List.countP_nil]
      rw [if_neg (fun hc => hm.1 (hc.1.resolve_right hm.2))]

/-- Whenever `start_game_if_ready` produces a simulator invocation, the
resulting Game is fully ready. -/
theorem start_fires_only_ready (sim : Simulator) (g : Game)
    (hpos : 0 < simCount (g.start_game_if_ready sim).2) :
    (g.start_game_if_ready sim).1.allReady = true := by
  unfold Game.start_game_if_ready at hpos ⊢
  by_cases hrdy : g.allReady = true
  · rw [if_pos hrdy] at hpos ⊢
    have hr : (g.battle sim).1.allReady = g.allReady := by
      unfold Game.allReady
      rw [battle_ready]
    rw [hr, hrdy]
  · rw [if_neg hrdy] at hpos
    simp [simCount] at hpos

/-- Whenever a readiness signal triggers `battle`, all four flags of the
resulting Game are true. -/
theorem step_fires_only_ready (sim : Simulator) (g : Game) (s : Signal)
    (hpos : 0 < simCount (g.step sim s).2) : (g.step sim s).1.allReady = true := by
  rcases s with ⟨x, k⟩
  have hstep : Game.step sim g (x, k) = Game.save_what_is_ready sim g x k := by
    cases k <;> rfl
  rw [hstep] at hpos ⊢
  unfold Game.save_what_is_ready at hpos ⊢
  by_cases hguard : ¬ (g.p1.id = x ∨ g.p2.id = x)
  · rw [if_pos hguard] at hpos
    simp [simCount] at hpos
  · rw [if_neg hguard] at hpos ⊢
    exact start_fires_only_ready sim _ hpos

/-- C1 counterexample: on a fresh Game with distinct players, the four
readiness signals followed by a re-delivery of the last one make
`battle` run twice — the transition is not once per Game. -/
theorem c1_counterexample :
    simCount ((Game.init ⟨0, "alice", "a", true⟩ ⟨1, "bob", "b", true⟩).run
      (fun _ _ _ => (1, "m", "l"))
      [("a", Kind.units), ("a", Kind.quiz), ("b", Kind.units), ("b", Kind.quiz),
        ("b", Kind.quiz)]).2 = 2 ∧
    simCount ((Game.init ⟨0, "alice", "a", true⟩ ⟨1, "bob", "b", true⟩).run
      (fun _ _ _ => (1, "m", "l"))
      [("a", Kind.units), ("a", Kind.quiz), ("b", Kind.units), ("b", Kind.quiz),
        ("b", Kind.quiz)]).2 ≠ 1 := by
  constructor <;> decide

/-- C1 (amended): over any duplicate-free sequence of readiness signals
on a fresh Game with distinct player connection ids, `battle` is invoked
exactly once if the sequence contains both signal kinds for both
players, and never otherwise; a signal matching neither player leaves
the Game unchanged with no output; and any signal that does invoke the
simulator leaves the Game fully ready, so the transition happens only
after both flags are true for both players. -/
theorem c1_amended (sim : Simulator) (p1 p2 : Player) (L : List Signal)
    (hab : p1.id ≠ p2.id) (hnd : L.Nodup) :
    (simCount ((Game.init p1 p2).run sim L).2 =
      if coversAll p1.id p2.id L = true then 1 else 0) ∧
    (∀ (g : Game) (s : Signal), s.1 ≠ g.p1.id → s.1 ≠ g.p2.id → g.step sim s = (g, [])) ∧
    (∀ (g : Game) (s : Signal), 0 < simCount (g.step sim s).2 →
      (g.step sim s).1.allReady = true) := by
  refine ⟨?_, ?_, fun g s hpos => step_fires_only_ready sim g s hpos⟩
  · have hinit : Game.init p1 p2 =
        ⟨p1, p2, false, [(p1.id, ⟨false, false⟩), (p2.id, ⟨false, false⟩)]⟩ := by
      simp [Game.init, dictInsert, hab]
    rw [hinit,
      run_simCount sim L p1.id p2.id p1 p2 false ⟨false, false⟩ ⟨false, false⟩ hab rfl rfl]
    have hcf := countFires_mem p1.id p2.id hab L [] hnd (fun s _ hs => List.not_mem_nil s hs)
    simpa [memFlags1, List.append_nil, coversAll] using hcf
  · intro g s hs1 hs2
    rcases s with ⟨x, k⟩
    have hstep : Game.step sim g (x, k) = Game.save_what_is_ready sim g x k := by
      cases k <;> rfl
    rw [hstep]
    unfold Game.save_what_is_ready
    rw [if_pos (show ¬ (g.p1.id = x ∨ g.p2.id = x) by
      rintro (h | h)
      · exact hs1 h.symm
      · exact hs2 h.symm)]

/-- Witness for C1 (amended): four distinct signals, battle fires
exactly once. -/
theorem c1_amended_witness :
    simCount ((Game.init ⟨0, "alice", "a", true⟩ ⟨1, "bob", "b", true⟩).run
      (fun _ _ _ => (1, "m", "l"))
      [("a", Kind.units), ("a", Kind.quiz), ("b", Kind.units), ("b", Kind.quiz)]).2 = 1 := by
  have h := (c1_amended (fun _ _ _ => (1, "m", "l")) ⟨0, "alice", "a", true⟩
    ⟨1, "bob", "b", true⟩
    [("a", Kind.units), ("a", Kind.quiz), ("b", Kind.units), ("b", Kind.quiz)]
    (by decide) (by decide)).1
  rw [h]
  decide

/-- C8 counterexample: after the four readiness signals have completed
the Game and `battle` has run, re-delivering the last signal — whose
quiz flag is already true — is observable: it runs `battle` again. -/
theorem c8_counterexample :
    ((Game.init ⟨0, "alice", "a", true⟩ ⟨1, "bob", "b", true⟩).run
        (fun _ _ _ => (1, "m", "l"))
        [("a", Kind.units), ("a", Kind.quiz), ("b", Kind.units), ("b", Kind.quiz)]).1.ready =
      [("a", ⟨true, true⟩), ("b", ⟨true, true⟩)] ∧
    (Game.step (fun _ _ _ => (1, "m", "l"))
        ((Game.init ⟨0, "alice", "a", true⟩ ⟨1, "bob", "b", true⟩).run
          (fun _ _ _ => (1, "m", "l"))
          [("a", Kind.units), ("a", Kind.quiz), ("b", Kind.units), ("b", Kind.quiz)]).1
        ("b", Kind.quiz)).2 ≠ [] ∧
    0 < simCount (Game.step (fun _ _ _ => (1, "m", "l"))
        ((Game.init ⟨0, "alice", "a", true⟩ ⟨1, "bob", "b", true⟩).run
          (fun _ _ _ => (1, "m", "l"))
          [("a", Kind.units), ("a", Kind.quiz), ("b", Kind.units), ("b", Kind.quiz)]).1
        ("b", Kind.quiz)).2 := by
  refine ⟨by decide, by decide, by decide⟩

/-- C8 (amended): re-delivering a matching signal whose flag is already
true (the flag update is the identity) leaves the readiness map exactly
as it was; if the four flags are not yet all true it is a complete
no-op, with no state change and no output; but if all four flags are
already true it re-invokes `battle`. -/
theorem c8_amended (sim : Simulator) (p1 p2 : Player) (fin : Bool) (f1 f2 : Flags) (s : Signal)
    (hab : p1.id ≠ p2.id)
    (hmatch : s.1 = p1.id ∨ s.1 = p2.id)
    (hset : applySig p1.id p2.id f1 f2 s = (f1, f2)) :
    Game.step sim ⟨p1, p2, fin, [(p1.id, f1), (p2.id, f2)]⟩ s =
      (if allTrue f1 f2 = true
        then Game.battle sim ⟨p1, p2, fin, [(p1.id, f1), (p2.id, f2)]⟩
        else (⟨p1, p2, fin, [(p1.id, f1), (p2.id, f2)]⟩, [])) ∧
    (Game.step sim ⟨p1, p2, fin, [(p1.id, f1), (p2.id, f2)]⟩ s).1.ready =
      [(p1.id, f1), (p2.id, f2)] := by
  have ht := step_template sim p1.id p2.id p1 p2 fin f1 f2 hab rfl rfl s
  rw [hset, if_pos hmatch] at ht
  constructor
  · exact ht
  · rw [ht]
    by_cases hrdy : allTrue f1 f2 = true
    · rw [if_pos hrdy, battle_ready]
    · rw [if_neg hrdy]

/-- Witness for C8 (amended): re-delivering the units signal of `alice`
when her units flag is already true but readiness is incomplete is a
complete no-op. -/
theorem c8_amended_witness :
    Game.step (fun _ _ _ => (1, "m", "l"))
      ⟨⟨0, "alice", "a", true⟩, ⟨1, "bob", "b", true⟩, false,
        [("a", ⟨true, false⟩), ("b", ⟨false, false⟩)]⟩ ("a", Kind.units) =
      (⟨⟨0, "alice", "a", true⟩, ⟨1, "bob", "b", true⟩, false,
        [("a", ⟨true, false⟩), ("b", ⟨false, false⟩)]⟩, []) := by
  have h := (c8_amended (fun _ _ _ => (1, "m", "l")) ⟨0, "alice", "a", true⟩
    ⟨1, "bob", "b", true⟩ false ⟨true, false⟩ ⟨false, false⟩ ("a", Kind.units)
    (by decide) (Or.inl rfl) (by decide)).1
  rw [h]
  decide

/-- Witness for C2: a concrete two-player room, sample positions 0 and
1. -/
theorem c2_draw_pair_witness :
    ∃ a b r2,
      (WaitingRoom.mk [⟨0, "alice", "a", false⟩, ⟨1, "bob", "b", false⟩]
          2).draw_two_players_to_game 0 1 = Except.ok ((a, b), r2) ∧
      a.oid ≠ b.oid ∧
      (∃ pa ∈ (WaitingRoom.mk [⟨0, "alice", "a", false⟩, ⟨1, "bob", "b", false⟩] 2).players,
          a = { pa with in_game := true }) ∧
      (∃ pb ∈ (WaitingRoom.mk [⟨0, "alice", "a", false⟩, ⟨1, "bob", "b", false⟩] 2).players,
          b = { pb with in_game := true }) ∧
      a.in_game = true ∧ b.in_game = true ∧
      (∀ q ∈ r2.players, q.oid ≠ a.oid ∧ q.oid ≠ b.oid) ∧
      r2.capacity =
        (WaitingRoom.mk [⟨0, "alice", "a", false⟩, ⟨1, "bob", "b", false⟩] 2).capacity :=
  c2_draw_pair (WaitingRoom.mk [⟨0, "alice", "a", false⟩, ⟨1, "bob", "b", false⟩] 2) 0 1
    (by decide) (by decide) (by decide) (by decide)
